import Mathlib

/-!
Verification of the SQS/S3 Express gateway (aws-s3-and-sqs-integration).

Shallow embedding of:
- `sqsConfig.js` : `getSQSClient` (env-var validation), `sendSQSMessage`,
  `receiveSQSMessages`, `deleteSQSMessage`;
- `index.js`     : `startSQSPolling` (the queue-to-socket relay loop) and the
  socket `send-message` handler;
- `s3Config.js`  : `getCloudFrontUrl`;
- `uploadRoutes.js` : the `POST /api/get-signed-url` route.

Effectful calls are modelled as events appended to a trace; JavaScript
exceptions are modelled by an explicit `Outcome` that propagates out of a
block unless a `try/catch` (modelled explicitly) intercepts it.  External
nondeterminism (what `JSON.parse` returns, whether the AWS SDK calls
resolve or reject) is supplied by oracles, so theorems quantify over every
possible behaviour of the environment.
-/

namespace SqsApp

/-- JSON values, as produced by `JSON.parse` / consumed by `JSON.stringify`.
Objects keep field insertion order, matching JavaScript object semantics. -/
inductive JVal where
  | str (s : String)
  | num (n : Int)
  | bool (b : Bool)
  | null
  | arr (xs : List JVal)
  | obj (fields : List (String × JVal))

/-- A message as returned by SQS `ReceiveMessageCommand`: the raw text body
and the single-use receipt handle (`message.Body`, `message.ReceiptHandle`). -/
structure SQSMessage where
  Body : String
  ReceiptHandle : String
deriving DecidableEq, Repr

/-- Observable effects of the polling loop, in program order.
`receiveCall n` is a call to `receiveSQSMessages(n)`; `publish b` is
`io.emit('message', b)`; `deleteCall r` is `deleteSQSMessage(r)`;
`logParseError` is the inner `catch (parseErr)` logging; `logPollError`
is the outer `catch (error)` logging; `sleep ms` is the
`setTimeout`-based wait. -/
inductive Event where
  | receiveCall (maxMessages : Nat)
  | publish (body : JVal)
  | deleteCall (receipt : String)
  | logParseError
  | logPollError
  | sleep (ms : Nat)

/-- Result of a JavaScript block: it either completes or an exception
escapes it. -/
inductive Outcome where
  | ok
  | thrown
deriving DecidableEq, Repr

/-- Oracle for the external effects one poll cycle depends on:
what `JSON.parse` yields on a body (`none` = it throws a `SyntaxError`),
and whether `deleteSQSMessage` on a receipt handle resolves (`true`)
or rejects (`false`). `io.emit` never throws on data obtained from
`JSON.parse` (it is a fire-and-forget broadcast of plain data), so it
needs no oracle. -/
structure PollWorld where
  parse : String → Option JVal
  deleteOk : String → Bool

/-- The property access `body.topic` in the inner log line
(index.js line 129) throws a `TypeError` exactly when the parsed value is
JavaScript `null` (`JSON.parse` can yield `null` but never `undefined`);
on every other value a missing property reads as `undefined` without
throwing. -/
def topicAccessThrows : JVal → Bool
  | JVal.null => true
  | _ => false

/-- Body of the inner `try` of `startSQSPolling` (index.js lines 128-135):
parse the body, log it (the template literal reads `body.topic`, which
throws on a `null` body before any publish or delete), broadcast it, then
delete the message.  A `JSON.parse` failure throws before any publish or
delete; a delete rejection throws after both calls were issued. -/
def messageTryBody (w : PollWorld) (m : SQSMessage) : List Event × Outcome :=
  match w.parse m.Body with
  | none => ([], .thrown)
  | some body =>
      if topicAccessThrows body then ([], .thrown)
      else if w.deleteOk m.ReceiptHandle then
        ([.publish body, .deleteCall m.ReceiptHandle], .ok)
      else
        ([.publish body, .deleteCall m.ReceiptHandle], .thrown)

/-- One message iteration of the `for` loop: the inner `try` block together
with its `catch (parseErr)` handler, which logs and swallows the
exception (index.js lines 127-138). -/
def processMessage (w : PollWorld) (m : SQSMessage) : List Event × Outcome :=
  match messageTryBody w m with
  | (evs, .ok) => (evs, .ok)
  | (evs, .thrown) => (evs ++ [.logParseError], .ok)

/-- The `for (const message of messages)` loop.  An exception escaping a
step aborts the remaining steps and propagates (generic JavaScript loop
semantics; whether a step can throw is up to the step). -/
def runFor (step : SQSMessage → List Event × Outcome) :
    List SQSMessage → List Event × Outcome
  | [] => ([], .ok)
  | m :: ms =>
      match step m with
      | (evs, .thrown) => (evs, .thrown)
      | (evs, .ok) =>
          match runFor step ms with
          | (evs2, out) => (evs ++ evs2, out)

/-- What a call to `receiveSQSMessages(5)` does from the loop's point of
view: either it resolves with a (possibly empty) list of messages —
`response.Messages || []` — or it rejects. -/
inductive ReceiveResult where
  | ok (msgs : List SQSMessage)
  | throw
deriving Repr

/-- Body of the outer `try` of one `while (true)` iteration
(index.js lines 124-139): the receive call followed by the per-message
loop.  The receive call itself is issued even when it rejects. -/
def iterTryBody (w : PollWorld) (r : ReceiveResult) : List Event × Outcome :=
  match r with
  | .throw => ([.receiveCall 5], .thrown)
  | .ok msgs =>
      match runFor (processMessage w) msgs with
      | (evs, out) => (.receiveCall 5 :: evs, out)

/-- One full iteration of `while (true)`: the outer `try` with its
`catch (error)` handler, which logs and sleeps 5000 ms
(index.js lines 140-144). -/
def pollIteration (w : PollWorld) (r : ReceiveResult) : List Event × Outcome :=
  match iterTryBody w r with
  | (evs, .ok) => (evs, .ok)
  | (evs, .thrown) => (evs ++ [.logPollError, .sleep 5000], .ok)

/-- `startSQSPolling`, unrolled over a finite schedule of receive
outcomes (one per loop iteration).  An exception escaping an iteration
would terminate the loop (and the async function) — the theorems show
this never happens. -/
def startSQSPolling (w : PollWorld) : List ReceiveResult → List Event × Outcome
  | [] => ([], .ok)
  | r :: rs =>
      match pollIteration w r with
      | (evs, .thrown) => (evs, .thrown)
      | (evs, .ok) =>
          match startSQSPolling w rs with
          | (evs2, out) => (evs ++ evs2, out)

/-! ### Event counting helpers -/

def isReceive : Event → Bool
  | .receiveCall _ => true
  | _ => false

def isPublish : Event → Bool
  | .publish _ => true
  | _ => false

def isDelete : Event → Bool
  | .deleteCall _ => true
  | _ => false

def isSleep : Event → Bool
  | .sleep _ => true
  | _ => false

def countReceive (t : List Event) : Nat := t.countP isReceive
def countPublish (t : List Event) : Nat := t.countP isPublish
def countDelete (t : List Event) : Nat := t.countP isDelete
def countSleep (t : List Event) : Nat := t.countP isSleep

/-! ### Environment-variable validation (`getSQSClient`, sqsConfig.js) -/

/-- `process.env`: a partial map from variable names to strings. -/
def EnvMap : Type := String → Option String

/-- JavaScript truthiness of `process.env[varName]`: `undefined` and the
empty string are falsy. -/
def envTruthy (envv : EnvMap) (k : String) : Bool :=
  match envv k with
  | none => false
  | some s => !(s == "")

/-- The `requiredEnvVars` list of `getSQSClient`. -/
def requiredEnvVars : List String :=
  ["AWS_REGION", "AWS_ACCESS_KEY_ID", "AWS_SECRET_ACCESS_KEY", "AWS_SQS_QUEUE_URL"]

/-- `missingVars` in `getSQSClient`. -/
def missingVars (envv : EnvMap) : List String :=
  requiredEnvVars.filter (fun v => !envTruthy envv v)

/-- `getSQSClient` throws its configuration `Error` exactly when
`missingVars.length > 0`. -/
def getSQSClientThrows (envv : EnvMap) : Bool :=
  !(missingVars envv).isEmpty

/-- `receiveSQSMessages` calls `getSQSClient()` first: under a missing
configuration the call rejects with the configuration error before the
SDK is ever invoked; otherwise the outcome is whatever the queue
service does (`external`). -/
def receiveResult (envv : EnvMap) (external : ReceiveResult) : ReceiveResult :=
  if getSQSClientThrows envv then .throw else external

/-- The polling loop as actually wired: every iteration's receive outcome
is filtered through the lazy client construction. -/
def startSQSPollingEnv (envv : EnvMap) (w : PollWorld)
    (externals : List ReceiveResult) : List Event × Outcome :=
  startSQSPolling w (externals.map (receiveResult envv))

/-! ### `sendSQSMessage` (sqsConfig.js) -/

/-- JavaScript object spread/override: `{...fields, k: v}` updates `k` in
place when present (keeping its position) and appends it otherwise. -/
def setField (fields : List (String × JVal)) (k : String) (v : JVal) :
    List (String × JVal) :=
  if fields.any (fun p => p.1 == k) then
    fields.map (fun p => if p.1 == k then (k, v) else p)
  else
    fields ++ [(k, v)]

/-- First binding of a key in a JS object's field list. -/
def lookupField (fields : List (String × JVal)) (k : String) : Option JVal :=
  match fields with
  | [] => none
  | p :: ps => if p.1 == k then some p.2 else lookupField ps k

/-- The `SendMessageCommand` built by `sendSQSMessage`: the queue URL, the
object serialized into `MessageBody`, and the single `Topic` message
attribute (`DataType: "String"`, `StringValue: topic`). -/
structure SendMessageCommandM where
  QueueUrl : Option String
  MessageBody : List (String × JVal)
  TopicAttrType : String
  TopicAttrValue : String

/-- `sendSQSMessage(data, topic = 'general')`: calls `getSQSClient()` (which
throws on missing configuration, modelled as `none`), then sends
`JSON.stringify({...data, topic, timestamp: new Date().toISOString()})`
with the `Topic` string attribute.  `topic` is `none` when the caller
omits the argument (JS default parameter); `now` is the ISO timestamp
taken at send time. -/
def sendSQSMessage (envv : EnvMap) (data : List (String × JVal))
    (topic : Option String) (now : String) : Option SendMessageCommandM :=
  if getSQSClientThrows envv then none
  else
    let t := topic.getD "general"
    some { QueueUrl := envv "AWS_SQS_QUEUE_URL"
           MessageBody :=
             setField (setField data "topic" (.str t)) "timestamp" (.str now)
           TopicAttrType := "String"
           TopicAttrValue := t }

/-! ### The socket `send-message` handler (index.js lines 152-160) -/

/-- Actions the connection handler can take: call `sendSQSMessage` with a
payload and topic, or broadcast a payload locally over the socket layer. -/
inductive ServerAction where
  | sqsSendCall (data : List (String × JVal)) (topic : Option String)
  | localBroadcast (body : JVal)

/-- The `socket.on('send-message', ...)` handler: destructures
`{text, topic}` from the event data and calls
`sendSQSMessage({ text, senderId: socket.id }, topic)`.  It performs no
`io.emit`/`socket.emit` of its own. -/
def handleSendMessage (socketId : String) (text : JVal)
    (topic : Option String) : List ServerAction :=
  [.sqsSendCall [("text", text), ("senderId", .str socketId)] topic]

/-- Predicate: the action is a local broadcast. -/
def ServerAction.isLocalBroadcast : ServerAction → Bool
  | .localBroadcast _ => true
  | _ => false

/-! ### `getCloudFrontUrl` (s3Config.js) -/

/-- `domain.replace(/\/$/, '')`: remove one trailing slash if present.
JS strings are modelled here as their character sequences, so that the
regex substitution is a structural operation. -/
def stripTrailingSlash (s : List Char) : List Char :=
  if s.getLast? = some '/' then s.dropLast else s

/-- `key.replace(/^\//, '')`: remove one leading slash if present. -/
def stripLeadingSlash (s : List Char) : List Char :=
  match s with
  | [] => []
  | c :: cs => if c = '/' then cs else c :: cs

/-- `getCloudFrontUrl(key)`: `null` when `AWS_CLOUDFRONT_DOMAIN` is unset
or falsy (the empty string), otherwise the concatenation
`https:// + cleanDomain + / + cleanKey`.
`domain` is `process.env.AWS_CLOUDFRONT_DOMAIN` (`none` = unset). -/
def getCloudFrontUrl (domain : Option (List Char)) (key : List Char) :
    Option (List Char) :=
  match domain with
  | none => none
  | some d =>
      if d = [] then none
      else some ("https://".data ++ stripTrailingSlash d
                  ++ '/' :: stripLeadingSlash key)

/-! ### `POST /api/get-signed-url` (uploadRoutes.js lines 131-158) -/

/-- `7 * 24 * 60 * 60` — the route's `maxExpiry`. -/
def maxExpiry : Int := 7 * 24 * 60 * 60

/-- The success payload of the route: the expiry passed to
`getSignedUrlForFile` and the `expiresIn` echoed in the JSON response. -/
structure SignedUrlResponse where
  fileKey : String
  signedUrlExpiry : Int
  expiresIn : Int
deriving DecidableEq, Repr

/-- The `POST /api/get-signed-url` handler.  `fileKey` and `expiresIn` come
from `req.body`; `expiresIn = 3600` is the destructuring default applied
when the field is absent.  A falsy `fileKey` (absent or empty string) is
rejected with HTTP 400; otherwise the expiry is
`Math.min(parseInt(expiresIn), maxExpiry)` and is used both to mint the
signed URL and in the response body.  `expiresIn` is modelled as the
integer `parseInt` yields on the supplied value. -/
def getSignedUrlRoute (fileKey : Option String) (expiresIn : Option Int) :
    Except Nat SignedUrlResponse :=
  match fileKey with
  | none => .error 400
  | some k =>
      if k == "" then .error 400
      else
        let expiry := min (expiresIn.getD 3600) maxExpiry
        .ok { fileKey := k, signedUrlExpiry := expiry, expiresIn := expiry }

/-! ### Helper lemmas about the loop machinery -/

/-- The inner `catch` guarantees per-message processing never lets an
exception escape. -/
theorem processMessage_ok (w : PollWorld) (m : SQSMessage) :
    (processMessage w m).2 = Outcome.ok := by
  unfold processMessage
  rcases messageTryBody w m with ⟨evs, out⟩
  cases out <;> rfl

/-- The `for` loop over a batch runs every message's processing to
completion, in order. -/
theorem runFor_processMessage (w : PollWorld) (ms : List SQSMessage) :
    runFor (processMessage w) ms
      = ((ms.map (fun m => (processMessage w m).1)).flatten, Outcome.ok) := by
  induction ms with
  | nil => rfl
  | cons m ms ih =>
    have h := processMessage_ok w m
    rcases hp : processMessage w m with ⟨evs, out⟩
    rw [hp] at h
    cases out with
    | thrown => cases h
    | ok => simp [runFor, hp, ih]

/-- The outer `catch` guarantees an iteration never lets an exception
escape the `while (true)` body. -/
theorem pollIteration_ok (w : PollWorld) (r : ReceiveResult) :
    (pollIteration w r).2 = Outcome.ok := by
  unfold pollIteration
  rcases iterTryBody w r with ⟨evs, out⟩
  cases out <;> rfl

/-- The loop runs every scheduled iteration to completion, in order. -/
theorem startSQSPolling_eq (w : PollWorld) (rs : List ReceiveResult) :
    startSQSPolling w rs
      = ((rs.map (fun r => (pollIteration w r).1)).flatten, Outcome.ok) := by
  induction rs with
  | nil => rfl
  | cons r rs ih =>
    have h := pollIteration_ok w r
    rcases hp : pollIteration w r with ⟨evs, out⟩
    rw [hp] at h
    cases out with
    | thrown => cases h
    | ok => simp [startSQSPolling, hp, ih]

/-- Per-message processing never performs a receive call. -/
theorem countReceive_processMessage (w : PollWorld) (m : SQSMessage) :
    countReceive (processMessage w m).1 = 0 := by
  cases hp : w.parse m.Body with
  | none => simp [processMessage, messageTryBody, hp, countReceive, isReceive]
  | some body =>
    cases ht : topicAccessThrows body <;>
      cases hd : w.deleteOk m.ReceiptHandle <;>
        simp [processMessage, messageTryBody, hp, ht, hd, countReceive,
          isReceive]

/-- A batch's combined processing trace has no receive call. -/
theorem countReceive_batch (w : PollWorld) (msgs : List SQSMessage) :
    countReceive ((msgs.map (fun m => (processMessage w m).1)).flatten) = 0 := by
  induction msgs with
  | nil => rfl
  | cons m ms ih =>
    simp [countReceive, List.countP_append] at ih ⊢
    constructor
    · have := countReceive_processMessage w m
      simpa [countReceive] using this
    · exact ih

/-- Every iteration performs exactly one receive call. -/
theorem countReceive_pollIteration (w : PollWorld) (r : ReceiveResult) :
    countReceive (pollIteration w r).1 = 1 := by
  cases r with
  | throw => rfl
  | ok msgs =>
    have hrun := runFor_processMessage w msgs
    have hjoin := countReceive_batch w msgs
    simp [pollIteration, iterTryBody, hrun, countReceive, List.countP_cons, isReceive]
    simpa [countReceive] using hjoin

/-- Replacing a key that occurs in the field list puts `(k, v)` where the
first occurrence was, so a lookup of `k` finds `v`. -/
theorem lookup_replace_self (fs : List (String × JVal)) (k : String) (v : JVal)
    (h : fs.any (fun p => p.1 == k) = true) :
    lookupField (fs.map (fun p => if p.1 == k then (k, v) else p)) k
      = some v := by
  induction fs with
  | nil => simp at h
  | cons p ps ih =>
    cases hp : p.1 == k with
    | true =>
      have hpe : p.1 = k := by simpa using hp
      simp [lookupField, hpe]
    | false =>
      have h' : ps.any (fun p => p.1 == k) = true := by
        simpa [List.any_cons, hp] using h
      simp [lookupField, hp]
      simpa using ih h'

/-- Appending `(k, v)` after a field list that does not contain `k` makes a
lookup of `k` find `v`. -/
theorem lookup_append_self (fs : List (String × JVal)) (k : String) (v : JVal)
    (h : fs.any (fun p => p.1 == k) = false) :
    lookupField (fs ++ [(k, v)]) k = some v := by
  induction fs with
  | nil => simp [lookupField]
  | cons p ps ih =>
    cases hp : p.1 == k with
    | true => simp [List.any_cons, hp] at h
    | false =>
      have h' : ps.any (fun p => p.1 == k) = false := by
        simpa [List.any_cons, hp] using h
      simp [lookupField, hp, ih h']

/-- After `setField fs k v`, looking up `k` yields `v` — the JS spread
`\x7b...data, k: v\x7d` overrides or adds the field. -/
theorem lookupField_setField_self (fs : List (String × JVal)) (k : String)
    (v : JVal) : lookupField (setField fs k v) k = some v := by
  unfold setField
  by_cases h : fs.any (fun p => p.1 == k) = true
  · rw [if_pos h]
    exact lookup_replace_self fs k v h
  · have hf : fs.any (fun p => p.1 == k) = false := by
      simpa only [Bool.not_eq_true] using h
    rw [if_neg h]
    exact lookup_append_self fs k v hf

/-- Overriding a key different from `k` does not change what a lookup of
`k` finds in the replaced list. -/
theorem lookup_replace_other (fs : List (String × JVal)) (k k' : String)
    (v : JVal) (hne : (k' == k) = false) :
    lookupField (fs.map (fun p => if p.1 == k' then (k', v) else p)) k
      = lookupField fs k := by
  induction fs with
  | nil => rfl
  | cons p ps ih =>
    cases hp : p.1 == k' with
    | true =>
      have hpe : p.1 = k' := by simpa using hp
      simp [lookupField, hpe, hne]
      simpa using ih
    | false =>
      cases hpk : p.1 == k with
      | true =>
        have hpke : p.1 = k := by simpa using hpk
        have hkk : ¬ (k = k') := by
          rw [hpke] at hp
          simpa using hp
        simp [lookupField, hp, hpke, hkk]
      | false =>
        have hpke : ¬ (p.1 = k) := by simpa using hpk
        simp [lookupField, hp, hpke]
        simpa using ih

/-- Appending a binding for a key different from `k` does not change what a
lookup of `k` finds. -/
theorem lookup_append_other (fs : List (String × JVal)) (k k' : String)
    (v : JVal) (hne : (k' == k) = false) :
    lookupField (fs ++ [(k', v)]) k = lookupField fs k := by
  induction fs with
  | nil => simp [lookupField, hne]
  | cons p ps ih => simp [lookupField, ih]

/-- `setField` with a different key leaves lookups of `k` unchanged. -/
theorem lookupField_setField_other (fs : List (String × JVal))
    (k k' : String) (v : JVal) (hne : (k' == k) = false) :
    lookupField (setField fs k' v) k = lookupField fs k := by
  unfold setField
  by_cases h : fs.any (fun p => p.1 == k') = true
  · rw [if_pos h]
    exact lookup_replace_other fs k k' v hne
  · rw [if_neg h]
    exact lookup_append_other fs k k' v hne

/-- The combined trace of a run has one receive call per iteration. -/
theorem countReceive_loop (w : PollWorld) (rs : List ReceiveResult) :
    countReceive ((rs.map (fun r => (pollIteration w r).1)).flatten)
      = rs.length := by
  induction rs with
  | nil => rfl
  | cons r rs ih =>
    have h1 := countReceive_pollIteration w r
    simp only [List.map_cons, List.flatten_cons, countReceive,
      List.countP_append, List.length_cons] at h1 ih ⊢
    omega

/-- `body.topic` does not throw on any parsed value other than `null`. -/
theorem topicAccessThrows_eq_false (b : JVal) (hb : ¬ (b = JVal.null)) :
    topicAccessThrows b = false := by
  cases b <;> first | rfl | exact absurd rfl hb

/-! ## The claims -/

/-- C2: for every schedule of receive outcomes (including rejections) and
every behaviour of `JSON.parse` and `deleteSQSMessage`, the polling loop
never lets an exception escape: every scheduled iteration runs (one
receive call each), and within a batch every message's processing trace
appears in order — no per-message or per-cycle failure halts the loop. -/
theorem C2_failures_never_halt_loop (w : PollWorld) (rs : List ReceiveResult) :
    (startSQSPolling w rs).2 = Outcome.ok
      ∧ startSQSPolling w rs
          = ((rs.map (fun r => (pollIteration w r).1)).flatten, Outcome.ok)
      ∧ (∀ ms : List SQSMessage,
          runFor (processMessage w) ms
            = ((ms.map (fun m => (processMessage w m).1)).flatten, Outcome.ok))
      ∧ countReceive (startSQSPolling w rs).1 = rs.length := by
  refine ⟨?_, startSQSPolling_eq w rs, fun ms => runFor_processMessage w ms, ?_⟩
  · rw [startSQSPolling_eq]
  · rw [startSQSPolling_eq]
    exact countReceive_loop w rs

/-- C3: a message whose body fails JSON parsing produces only the parse-error
log — zero publish calls and zero delete calls. -/
theorem C3_parse_failure_skips_without_delete (w : PollWorld) (m : SQSMessage)
    (h : w.parse m.Body = none) :
    processMessage w m = ([Event.logParseError], Outcome.ok)
      ∧ countPublish (processMessage w m).1 = 0
      ∧ countDelete (processMessage w m).1 = 0 := by
  have hpm : processMessage w m = ([Event.logParseError], Outcome.ok) := by
    simp [processMessage, messageTryBody, h]
  refine ⟨hpm, ?_, ?_⟩ <;> rw [hpm] <;> rfl

/-- Witness for C3 at the spec's scenario: body `not-json`, receipt `r2`. -/
theorem C3_parse_failure_skips_without_delete_witness :
    processMessage ⟨fun _ => none, fun _ => true⟩ ⟨"not-json", "r2"⟩
        = ([Event.logParseError], Outcome.ok)
      ∧ countPublish (processMessage ⟨fun _ => none, fun _ => true⟩
          ⟨"not-json", "r2"⟩).1 = 0
      ∧ countDelete (processMessage ⟨fun _ => none, fun _ => true⟩
          ⟨"not-json", "r2"⟩).1 = 0 :=
  C3_parse_failure_skips_without_delete ⟨fun _ => none, fun _ => true⟩
    ⟨"not-json", "r2"⟩ rfl

/-- C4 counterexample: the body `null` is valid JSON, so `JSON.parse`
succeeds — but the log line's `body.topic` access throws a `TypeError`
before the broadcast, so the message gets zero publish calls and zero
delete calls, refuting "exactly one publish and then one delete for
every received message whose body parses as JSON". -/
theorem C4_counterexample :
    (fun _ => some JVal.null : String → Option JVal) "null" = some JVal.null
      ∧ processMessage ⟨fun _ => some JVal.null, fun _ => true⟩
          ⟨"null", "r3"⟩ = ([Event.logParseError], Outcome.ok)
      ∧ countPublish (processMessage ⟨fun _ => some JVal.null, fun _ => true⟩
          ⟨"null", "r3"⟩).1 = 0
      ∧ countDelete (processMessage ⟨fun _ => some JVal.null, fun _ => true⟩
          ⟨"null", "r3"⟩).1 = 0
      ∧ ¬ ∃ rest, (processMessage ⟨fun _ => some JVal.null, fun _ => true⟩
          ⟨"null", "r3"⟩).1
            = Event.publish JVal.null :: Event.deleteCall "r3" :: rest := by
  refine ⟨rfl, rfl, rfl, rfl, ?_⟩
  rintro ⟨rest, h⟩
  simp [processMessage, messageTryBody, topicAccessThrows] at h

/-- C4 (amended): a message whose body parses as JSON to a value other
than `null` yields exactly one publish of the parsed body followed by
exactly one delete call with that message's own receipt handle (publish
strictly before delete); a body parsing to JSON `null` makes the log
line's `body.topic` access throw, so that message gets only the
error log — zero publish calls and zero delete calls. -/
theorem C4_nonnull_one_publish_then_one_delete (w : PollWorld)
    (m : SQSMessage) (body : JVal) (h : w.parse m.Body = some body) :
    (¬ (body = JVal.null) →
      ∃ rest, (processMessage w m).1
          = Event.publish body :: Event.deleteCall m.ReceiptHandle :: rest
        ∧ countPublish (processMessage w m).1 = 1
        ∧ countDelete (processMessage w m).1 = 1)
      ∧ (body = JVal.null →
          processMessage w m = ([Event.logParseError], Outcome.ok)
            ∧ countPublish (processMessage w m).1 = 0
            ∧ countDelete (processMessage w m).1 = 0) := by
  constructor
  · intro hb
    have ht : topicAccessThrows body = false := topicAccessThrows_eq_false body hb
    cases hd : w.deleteOk m.ReceiptHandle with
    | true =>
      refine ⟨[], ?_, ?_, ?_⟩ <;>
        simp [processMessage, messageTryBody, h, ht, hd, countPublish,
          countDelete, isPublish, isDelete, List.countP_cons]
    | false =>
      refine ⟨[Event.logParseError], ?_, ?_, ?_⟩ <;>
        simp [processMessage, messageTryBody, h, ht, hd, countPublish,
          countDelete, isPublish, isDelete, List.countP_cons]
  · intro hb
    subst hb
    refine ⟨?_, ?_, ?_⟩ <;>
      simp [processMessage, messageTryBody, h, topicAccessThrows,
        countPublish, countDelete, isPublish, isDelete]

/-- Witness for the amended C4 at the spec's scenario: a body parsing to
the (non-null) envelope `text: hi, topic: t1`, receipt `r1`. -/
theorem C4_nonnull_one_publish_then_one_delete_witness :
    (¬ (JVal.obj [("text", JVal.str "hi"), ("topic", JVal.str "t1")]
        = JVal.null) →
      ∃ rest,
        (processMessage
            ⟨fun _ => some (JVal.obj [("text", JVal.str "hi"),
              ("topic", JVal.str "t1")]), fun _ => true⟩
            ⟨"hi-t1-body", "r1"⟩).1
          = Event.publish (JVal.obj [("text", JVal.str "hi"),
              ("topic", JVal.str "t1")]) :: Event.deleteCall "r1" :: rest
        ∧ countPublish (processMessage
            ⟨fun _ => some (JVal.obj [("text", JVal.str "hi"),
              ("topic", JVal.str "t1")]), fun _ => true⟩
            ⟨"hi-t1-body", "r1"⟩).1 = 1
        ∧ countDelete (processMessage
            ⟨fun _ => some (JVal.obj [("text", JVal.str "hi"),
              ("topic", JVal.str "t1")]), fun _ => true⟩
            ⟨"hi-t1-body", "r1"⟩).1 = 1)
      ∧ (JVal.obj [("text", JVal.str "hi"), ("topic", JVal.str "t1")]
          = JVal.null →
          processMessage
              ⟨fun _ => some (JVal.obj [("text", JVal.str "hi"),
                ("topic", JVal.str "t1")]), fun _ => true⟩
              ⟨"hi-t1-body", "r1"⟩
            = ([Event.logParseError], Outcome.ok)
            ∧ countPublish (processMessage
                ⟨fun _ => some (JVal.obj [("text", JVal.str "hi"),
                  ("topic", JVal.str "t1")]), fun _ => true⟩
                ⟨"hi-t1-body", "r1"⟩).1 = 0
            ∧ countDelete (processMessage
                ⟨fun _ => some (JVal.obj [("text", JVal.str "hi"),
                  ("topic", JVal.str "t1")]), fun _ => true⟩
                ⟨"hi-t1-body", "r1"⟩).1 = 0) :=
  C4_nonnull_one_publish_then_one_delete
    ⟨fun _ => some (JVal.obj [("text", JVal.str "hi"),
      ("topic", JVal.str "t1")]), fun _ => true⟩
    ⟨"hi-t1-body", "r1"⟩ _ rfl

/-- C5: a rejected receive call produces exactly the error log and a
5000 ms sleep, the iteration completes normally (no propagation), and the
loop continues with the next iteration's trace right after the sleep. -/
theorem C5_receive_error_backoff_then_continue (w : PollWorld)
    (rs : List ReceiveResult) :
    pollIteration w ReceiveResult.throw
        = ([Event.receiveCall 5, Event.logPollError, Event.sleep 5000],
           Outcome.ok)
      ∧ startSQSPolling w (ReceiveResult.throw :: rs)
          = ([Event.receiveCall 5, Event.logPollError, Event.sleep 5000]
              ++ (startSQSPolling w rs).1, Outcome.ok) := by
  refine ⟨rfl, ?_⟩
  rw [startSQSPolling_eq w (ReceiveResult.throw :: rs),
    startSQSPolling_eq w rs]
  rfl

/-- C6: a successful receive returning zero messages yields a trace with
only the receive call — no delete, no sleep — and the loop's next receive
follows immediately. -/
theorem C6_empty_receive_no_delete_no_sleep (w : PollWorld)
    (rs : List ReceiveResult) :
    pollIteration w (ReceiveResult.ok []) = ([Event.receiveCall 5], Outcome.ok)
      ∧ countDelete (pollIteration w (ReceiveResult.ok [])).1 = 0
      ∧ countSleep (pollIteration w (ReceiveResult.ok [])).1 = 0
      ∧ startSQSPolling w (ReceiveResult.ok [] :: rs)
          = (Event.receiveCall 5 :: (startSQSPolling w rs).1, Outcome.ok) := by
  refine ⟨rfl, rfl, rfl, ?_⟩
  rw [startSQSPolling_eq w (ReceiveResult.ok [] :: rs),
    startSQSPolling_eq w rs]
  rfl

/-- C1 counterexample: with every required variable absent, client
construction does throw the configuration error — but the polling loop
keeps re-attempting: over a two-iteration schedule it issues two receive
attempts (each failing on client construction), logs, sleeps 5 s each
time, and the process stays alive.  This refutes the claim that the
failure is fatal at startup and never retried by the polling loop. -/
theorem C1_counterexample :
    getSQSClientThrows (fun _ => none) = true
      ∧ (startSQSPollingEnv (fun _ => none) ⟨fun _ => none, fun _ => true⟩
            [ReceiveResult.ok [], ReceiveResult.ok []]).1
          = [Event.receiveCall 5, Event.logPollError, Event.sleep 5000,
             Event.receiveCall 5, Event.logPollError, Event.sleep 5000]
      ∧ countReceive (startSQSPollingEnv (fun _ => none)
            ⟨fun _ => none, fun _ => true⟩
            [ReceiveResult.ok [], ReceiveResult.ok []]).1 = 2
      ∧ (startSQSPollingEnv (fun _ => none) ⟨fun _ => none, fun _ => true⟩
            [ReceiveResult.ok [], ReceiveResult.ok []]).2 = Outcome.ok :=
  ⟨rfl, rfl, rfl, rfl⟩

/-- C1 (amended): with any required variable absent, `getSQSClient` throws
a configuration error on every call; since the client is built lazily
inside the loop's `try`, every iteration's receive attempt fails, is
caught, logged, and followed by the 5 s backoff — the loop re-attempts
indefinitely and the process does not die. -/
theorem C1_amended_config_error_caught_and_retried (envv : EnvMap)
    (w : PollWorld) (externals : List ReceiveResult)
    (h : getSQSClientThrows envv = true) :
    startSQSPollingEnv envv w externals
      = ((externals.map (fun _ =>
            [Event.receiveCall 5, Event.logPollError, Event.sleep 5000])).flatten,
         Outcome.ok) := by
  have key : ∀ e : ReceiveResult,
      (pollIteration w (receiveResult envv e)).1
        = [Event.receiveCall 5, Event.logPollError, Event.sleep 5000] := by
    intro e
    unfold receiveResult
    rw [if_pos h]
    rfl
  unfold startSQSPollingEnv
  rw [startSQSPolling_eq]
  have hmap : (externals.map (receiveResult envv)).map
        (fun r => (pollIteration w r).1)
      = externals.map (fun _ =>
          [Event.receiveCall 5, Event.logPollError, Event.sleep 5000]) := by
    rw [List.map_map]
    exact List.map_congr_left (fun e _ => key e)
  rw [hmap]

/-- Witness for the amended C1 at a fully absent environment. -/
theorem C1_amended_config_error_caught_and_retried_witness :
    getSQSClientThrows (fun _ => none) = true
      ∧ startSQSPollingEnv (fun _ => none) ⟨fun _ => none, fun _ => true⟩
            [ReceiveResult.ok []]
          = (([ReceiveResult.ok []].map (fun _ =>
                [Event.receiveCall 5, Event.logPollError, Event.sleep 5000])).flatten,
             Outcome.ok) :=
  ⟨rfl, C1_amended_config_error_caught_and_retried (fun _ => none)
    ⟨fun _ => none, fun _ => true⟩ [ReceiveResult.ok []] rfl⟩

/-- C7: with a valid configuration, `sendSQSMessage` builds a body equal to
the payload's fields extended (JS spread) with `topic` and a `timestamp`
taken at send time, attaches `topic` as a `String` message attribute,
defaults the topic to `general` when the argument is absent — and the
poller never sets a timestamp at receive time: whatever it publishes is
exactly the value `JSON.parse` produced from the body. -/
theorem C7_send_body_topic_timestamp (envv : EnvMap)
    (data : List (String × JVal)) (topic : Option String) (now : String)
    (h : getSQSClientThrows envv = false) :
    ∃ cmd, sendSQSMessage envv data topic now = some cmd
      ∧ cmd.MessageBody
          = setField (setField data "topic" (JVal.str (topic.getD "general")))
              "timestamp" (JVal.str now)
      ∧ cmd.TopicAttrType = "String"
      ∧ cmd.TopicAttrValue = topic.getD "general"
      ∧ lookupField cmd.MessageBody "timestamp" = some (JVal.str now)
      ∧ lookupField cmd.MessageBody "topic"
          = some (JVal.str (topic.getD "general"))
      ∧ (topic = none → cmd.TopicAttrValue = "general")
      ∧ (∀ (w : PollWorld) (m : SQSMessage) (b : JVal),
          Event.publish b ∈ (processMessage w m).1 → w.parse m.Body = some b) := by
  have hsend : sendSQSMessage envv data topic now
      = some { QueueUrl := envv "AWS_SQS_QUEUE_URL"
               MessageBody :=
                 setField (setField data "topic"
                   (JVal.str (topic.getD "general"))) "timestamp" (JVal.str now)
               TopicAttrType := "String"
               TopicAttrValue := topic.getD "general" } := by
    unfold sendSQSMessage
    rw [if_neg (by simp [h])]
  refine ⟨_, hsend, rfl, rfl, rfl, ?_, ?_, ?_, ?_⟩
  · exact lookupField_setField_self _ "timestamp" (JVal.str now)
  · rw [lookupField_setField_other _ "topic" "timestamp" (JVal.str now)
      (by decide)]
    exact lookupField_setField_self data "topic" _
  · intro ht
    subst ht
    rfl
  · intro w m b hmem
    cases hp : w.parse m.Body with
    | none => simp [processMessage, messageTryBody, hp] at hmem
    | some b' =>
      cases ht : topicAccessThrows b' with
      | true => simp [processMessage, messageTryBody, hp, ht] at hmem
      | false =>
        cases hd : w.deleteOk m.ReceiptHandle with
        | true =>
          simp [processMessage, messageTryBody, hp, ht, hd] at hmem
          rw [hmem]
        | false =>
          simp [processMessage, messageTryBody, hp, ht, hd] at hmem
          rw [hmem]

/-- Witness for C7 with a complete environment, payload `text: hello`, an
omitted topic argument and a fixed send-time timestamp. -/
theorem C7_send_body_topic_timestamp_witness :
    getSQSClientThrows (fun _ => some "x") = false
      ∧ ∃ cmd, sendSQSMessage (fun _ => some "x") [("text", JVal.str "hello")]
            none "2026-01-05T00:00:00.000Z" = some cmd
        ∧ cmd.MessageBody
            = setField (setField [("text", JVal.str "hello")] "topic"
                (JVal.str "general")) "timestamp"
                (JVal.str "2026-01-05T00:00:00.000Z")
        ∧ cmd.TopicAttrType = "String"
        ∧ cmd.TopicAttrValue = "general"
        ∧ lookupField cmd.MessageBody "timestamp"
            = some (JVal.str "2026-01-05T00:00:00.000Z")
        ∧ lookupField cmd.MessageBody "topic" = some (JVal.str "general")
        ∧ ((none : Option String) = none → cmd.TopicAttrValue = "general")
        ∧ (∀ (w : PollWorld) (m : SQSMessage) (b : JVal),
            Event.publish b ∈ (processMessage w m).1 →
              w.parse m.Body = some b) :=
  ⟨rfl, C7_send_body_topic_timestamp (fun _ => some "x")
    [("text", JVal.str "hello")] none "2026-01-05T00:00:00.000Z" rfl⟩

/-- C8: the socket `send-message` handler's only action is a queue send of
the payload tagged with `senderId = socket.id`; there is no local
broadcast of that payload. -/
theorem C8_client_send_goes_through_queue (sid : String) (text : JVal)
    (topic : Option String) :
    handleSendMessage sid text topic
        = [ServerAction.sqsSendCall
            [("text", text), ("senderId", JVal.str sid)] topic]
      ∧ (∀ a ∈ handleSendMessage sid text topic, a.isLocalBroadcast = false)
      ∧ lookupField [("text", text), ("senderId", JVal.str sid)] "senderId"
          = some (JVal.str sid) := by
  refine ⟨rfl, ?_, rfl⟩
  intro a ha
  simp only [handleSendMessage, List.mem_singleton] at ha
  subst ha
  rfl

/-- C9: with a non-empty `fileKey`, the `get-signed-url` route succeeds; the
expiry it mints the URL with and echoes equals
`min(parseInt(expiresIn), 604800)`, defaults to 3600 when `expiresIn` is
omitted, and caps any request of 7 days or more at 604800. -/
theorem C9_signed_url_expiry_cap_and_default (k : String)
    (hk : ¬ (k = "")) (e? : Option Int) :
    ∃ r, getSignedUrlRoute (some k) e? = Except.ok r
      ∧ r.expiresIn = min (e?.getD 3600) maxExpiry
      ∧ r.signedUrlExpiry = r.expiresIn
      ∧ maxExpiry = 604800
      ∧ (e? = none → r.expiresIn = 3600)
      ∧ (∀ e : Int, e? = some e → 604800 ≤ e → r.expiresIn = 604800) := by
  refine ⟨{ fileKey := k, signedUrlExpiry := min (e?.getD 3600) maxExpiry,
            expiresIn := min (e?.getD 3600) maxExpiry },
    ?_, rfl, rfl, by norm_num [maxExpiry], ?_, ?_⟩
  · show (if (k == "") = true then (Except.error 400 : Except Nat SignedUrlResponse)
        else
          let expiry := min (e?.getD 3600) maxExpiry
          Except.ok { fileKey := k, signedUrlExpiry := expiry,
                      expiresIn := expiry })
        = Except.ok { fileKey := k,
                      signedUrlExpiry := min (e?.getD 3600) maxExpiry,
                      expiresIn := min (e?.getD 3600) maxExpiry }
    rw [if_neg (by simpa using hk)]
  · intro he
    subst he
    norm_num [maxExpiry]
  · intro e he hge
    subst he
    show min e maxExpiry = 604800
    rw [show maxExpiry = (604800 : Int) from by norm_num [maxExpiry]]
    exact min_eq_right hge

/-- Witness for C9 at `fileKey = uploads/a.jpg` and a requested expiry of
1000000 s (above the 7-day cap). -/
theorem C9_signed_url_expiry_cap_and_default_witness :
    ¬ (("uploads/a.jpg" : String) = "")
      ∧ ∃ r, getSignedUrlRoute (some "uploads/a.jpg") (some 1000000)
            = Except.ok r
        ∧ r.expiresIn = min (((some 1000000 : Option Int)).getD 3600) maxExpiry
        ∧ r.signedUrlExpiry = r.expiresIn
        ∧ maxExpiry = 604800
        ∧ ((some 1000000 : Option Int) = none → r.expiresIn = 3600)
        ∧ (∀ e : Int, (some 1000000 : Option Int) = some e → 604800 ≤ e →
            r.expiresIn = 604800) :=
  ⟨by decide, C9_signed_url_expiry_cap_and_default "uploads/a.jpg"
    (by decide) (some 1000000)⟩

/-- C10: `getCloudFrontUrl` returns `null` exactly when the CloudFront
domain variable is unset or empty; otherwise it returns
`https://` + domain + `/` + key with exactly one trailing slash stripped
from the domain and one leading slash stripped from the key when present
(demonstrated on doubled slashes: only one is removed). -/
theorem C10_cloudfront_url_shape (domain : Option (List Char))
    (key : List Char) :
    (getCloudFrontUrl domain key = none ↔ domain = none ∨ domain = some [])
      ∧ (∀ d : List Char, domain = some d → ¬ (d = []) →
          getCloudFrontUrl domain key
            = some ("https://".data ++ stripTrailingSlash d
                ++ '/' :: stripLeadingSlash key))
      ∧ stripTrailingSlash "cdn.example.com//".data = "cdn.example.com/".data
      ∧ stripTrailingSlash "cdn.example.com".data = "cdn.example.com".data
      ∧ stripLeadingSlash "//avatar.png".data = "/avatar.png".data
      ∧ stripLeadingSlash "avatar.png".data = "avatar.png".data := by
  refine ⟨?_, ?_, by decide, by decide, by decide, by decide⟩
  · cases domain with
    | none => simp [getCloudFrontUrl]
    | some d =>
      by_cases hd : d = []
      · simp [getCloudFrontUrl, hd]
      · simp [getCloudFrontUrl, hd]
  · intro d hdom hne
    subst hdom
    simp [getCloudFrontUrl, hne]

end SqsApp
